import Mathlib

/-! Verification of the dhl-sdk pagination core (`src/dhl_sdk/crud.py`).

This file gives a shallow embedding of the two classes of the module —
`CRUDClient` (a CRUD helper over an injected HTTP capability) and `Result`
(a lazy pagination iterator) — and proves or refutes the specification's
claims about them.  Python dictionaries become association lists with
CPython update semantics, the injected HTTP transport becomes explicit
response values or list-call functions, exceptions become `Except`, and
the mutable `Result` object becomes explicit state passing on a
`ResultState` record.  Call counts to the underlying `list` endpoint are
made explicit so that claims about the number of network calls can be
stated. -/

/-- Python exceptions that the embedded code can raise. -/
inductive PyError
  | stopIteration   -- raised by Result._fetch_next when the fetched page is empty
  | typeError       -- int(None): the x-total-count header was missing
  | valueError      -- int("garbage"): the x-total-count header was non-numeric
  | indexError      -- deque.popleft() on an empty deque
  | notFoundError   -- transport-level failure on a non-success HTTP status
  | connectionError -- generic transport failure
deriving DecidableEq, Repr

/-- A Python `Dict[str, str]`, modelled as an association list whose entries
are kept in insertion order, mirroring CPython dict semantics. -/
abbrev Params := List (String × String)

/-- The parsed JSON object for one entity: field name to decoded value. -/
abbrev Fields := List (String × String)

/-- Lookup in a Python dict: the value of the first (and in a real dict,
only) entry carrying the requested key. -/
def dictGet (d : Params) (k : String) : Option String :=
  (d.find? (fun p => p.1 = k)).map Prod.snd

/-- Assignment `d[k] = v` in a Python dict: if the key is present its value
is replaced in place (position preserved), otherwise the pair is appended. -/
def dictSet (d : Params) (k v : String) : Params :=
  if d.any (fun p => p.1 = k) then d.map (fun p => if p.1 = k then (k, v) else p)
  else d ++ [(k, v)]

/-- The in-place update `d |= upd` of CPython: each entry of `upd` is
assigned into `d` in order, so `upd`'s values win on key conflicts. -/
def dictUpdate (d upd : Params) : Params :=
  upd.foldl (fun acc p => dictSet acc p.1 p.2) d

/-- The reserved query parameters `CRUDClient.list` always injects
(crud.py lines 54-59). -/
def reservedParams (offset limit : Nat) : Params :=
  [("offset", toString offset), ("limit", toString limit),
   ("archived", "false"), ("sortBy[createdAt]", "desc")]

namespace CRUDClient

/-- Query parameters of the outgoing GET request built by `CRUDClient.list`
(crud.py lines 53-59): `query_params = query_params or {}` followed by
`query_params |= {reserved}`.  A `none` or empty caller dict is replaced by
a fresh empty dict, whose merged contents coincide with `reservedParams`. -/
def outgoingParams (qp : Option Params) (offset limit : Nat) : Params :=
  let base := match qp with
    | none => []
    | some d => d
  dictUpdate base (reservedParams offset limit)

/-- Contents of the caller's `query_params` dict object after
`CRUDClient.list` returns.  Because `query_params or {}` rebinds the local
name to a fresh dict when the caller's dict is empty (empty dicts are falsy
in Python), only a non-empty caller dict is mutated in place by `|=`. -/
def callerParamsAfter (qp : Params) (offset limit : Nat) : Params :=
  if qp = [] then [] else dictUpdate qp (reservedParams offset limit)

end CRUDClient

/-! Model of Python `int(...)` as applied to the `x-total-count` header
(crud.py line 62): `int(response.headers.get("x-total-count"))`.
`int(None)` raises `TypeError`; `int(s)` for a string strips ASCII
whitespace, accepts an optional sign and a nonempty digit run with single
underscores allowed between digits, and raises `ValueError` otherwise. -/

/-- ASCII whitespace stripped by Python `int(str)`. -/
def isPySpace (c : Char) : Bool :=
  c = ' ' || c = '\t' || c = '\n' || c = '\r' || c = Char.ofNat 11 || c = Char.ofNat 12

/-- Strip leading and trailing whitespace. -/
def pyStrip (cs : List Char) : List Char :=
  ((cs.dropWhile isPySpace).reverse.dropWhile isPySpace).reverse

/-- Digit run of Python's decimal int literal grammar, after the first
digit: single underscores are allowed only between digits.  Returns the
accumulated value, or `none` on any malformed character. -/
def pyDigits (acc : Nat) : List Char → Option Nat
  | [] => some acc
  | '_' :: c :: cs =>
      if c.isDigit then pyDigits (acc * 10 + (c.toNat - 48)) cs else none
  | c :: cs =>
      if c.isDigit then pyDigits (acc * 10 + (c.toNat - 48)) cs else none

/-- Parse a stripped character list as a Python decimal integer:
optional sign, then a digit run. -/
def pyIntCore : List Char → Option Int
  | '+' :: c :: cs =>
      if c.isDigit then (pyDigits (c.toNat - 48) cs).map Int.ofNat else none
  | '-' :: c :: cs =>
      if c.isDigit then (pyDigits (c.toNat - 48) cs).map (fun n => -(n : Int)) else none
  | c :: cs =>
      if c.isDigit then (pyDigits (c.toNat - 48) cs).map Int.ofNat else none
  | [] => none

/-- Python `int(s)` on a string: `ValueError` when the stripped string does
not match the decimal integer grammar. -/
def pyIntOfString (s : String) : Except PyError Int :=
  match pyIntCore (pyStrip s.toList) with
  | none => Except.error PyError.valueError
  | some n => Except.ok n

/-- Python `int(x)` where `x` is `headers.get(...)`: `int(None)` raises
`TypeError`, otherwise the string is parsed. -/
def pyIntOfOpt : Option String → Except PyError Int
  | none => Except.error PyError.typeError
  | some s => pyIntOfString s

/-- Lowercase a string (ASCII), for case-insensitive header lookup. -/
def strLower (s : String) : String :=
  String.mk (s.toList.map Char.toLower)

/-- Lookup in `response.headers`: requests exposes headers as a
case-insensitive dict, so keys compare case-insensitively. -/
def headerGet (hs : Params) (k : String) : Option String :=
  (hs.find? (fun p => strLower p.1 = strLower k)).map Prod.snd

/-- An HTTP response to a listing GET, as `CRUDClient.list` consumes it:
its headers and its JSON body already decoded to a list of field maps. -/
structure ListResponse where
  headers : Params
  body : List Fields

/-- An HTTP response to a single-entity GET, as `CRUDClient.get` consumes
it: its status code and its JSON body decoded to a field map. -/
structure GetResponse where
  status : Nat
  body : Fields
deriving DecidableEq

/-- Modelled from the spec: the concrete HTTP client of the repository is
not under `src/` (only its `Client` protocol declaration is, crud.py lines
19-24).  Per the spec, `get` "fails with `NotFoundError` (or propagates the
transport's error) if the server reports a non-success status": the
transport yields the response on a success (2xx) status and raises a
not-found-class error otherwise. -/
def transportGet (resp : GetResponse) : Except PyError GetResponse :=
  if 200 ≤ resp.status ∧ resp.status < 300 then Except.ok resp
  else Except.error PyError.notFoundError

namespace CRUDClient

/-- `CRUDClient.get` (crud.py lines 43-48) against a transport response:
on transport success the body's fields are passed to the injected
constructor (together with the client, which the model elides); a transport
error propagates.  The second component counts constructor invocations. -/
def get {T : Type} (factory : Fields → T) (resp : GetResponse) :
    Except PyError T × Nat :=
  match transportGet resp with
  | Except.error e => (Except.error e, 0)
  | Except.ok r => (Except.ok (factory r.body), 1)

/-- Response processing of `CRUDClient.list` (crud.py lines 61-68): the
total is parsed from the `x-total-count` header with `int(...)` — raising
before any entity is constructed — and on success each body element is
passed through the injected constructor. -/
def list {T : Type} (factory : Fields → T) (resp : ListResponse) :
    Except PyError (List T × Int) :=
  match pyIntOfOpt (headerGet resp.headers "x-total-count") with
  | Except.error e => Except.error e
  | Except.ok total => Except.ok (resp.body.map factory, total)

end CRUDClient

/-! Lemmas about the dict model. -/

lemma dictGet_nil (k : String) : dictGet [] k = none := rfl

lemma dictGet_cons (p : String × String) (d : Params) (k : String) :
    dictGet (p :: d) k = if p.1 = k then some p.2 else dictGet d k := by
  by_cases h : p.1 = k <;> simp [dictGet, List.find?_cons, h]

lemma dictGet_append (d₁ d₂ : Params) (k : String) :
    dictGet (d₁ ++ d₂) k = (dictGet d₁ k).orElse (fun _ => dictGet d₂ k) := by
  induction d₁ with
  | nil => simp [dictGet]
  | cons p ps ih =>
      by_cases h : p.1 = k <;> simp [dictGet_cons, h, ih]

lemma dictGet_eq_none_of_any_eq_false (d : Params) (k : String)
    (h : d.any (fun p => p.1 = k) = false) : dictGet d k = none := by
  induction d with
  | nil => rfl
  | cons p ps ih =>
      simp only [List.any_cons, Bool.or_eq_false_iff] at h
      have hp : ¬ p.1 = k := of_decide_eq_false h.1
      rw [dictGet_cons, if_neg hp]
      exact ih h.2

lemma dictGet_map_set_of_any (d : Params) (k v : String)
    (h : d.any (fun p => p.1 = k) = true) :
    dictGet (d.map (fun p => if p.1 = k then (k, v) else p)) k = some v := by
  induction d with
  | nil => simp at h
  | cons p ps ih =>
      by_cases hp : p.1 = k
      · simp [hp, dictGet_cons]
      · have h2 : ps.any (fun p => p.1 = k) = true := by
          simpa [hp] using h
        simp [hp, dictGet_cons, ih h2]

lemma dictGet_map_set_ne (d : Params) (k v k' : String) (h : k' ≠ k) :
    dictGet (d.map (fun p => if p.1 = k then (k, v) else p)) k' = dictGet d k' := by
  induction d with
  | nil => rfl
  | cons p ps ih =>
      by_cases hp : p.1 = k
      · simp [hp, dictGet_cons, Ne.symm h, ih]
      · simp [hp, dictGet_cons, ih]

lemma dictGet_dictSet_self (d : Params) (k v : String) :
    dictGet (dictSet d k v) k = some v := by
  unfold dictSet
  by_cases h : d.any (fun p => p.1 = k) = true
  · rw [if_pos h]
    exact dictGet_map_set_of_any d k v h
  · rw [if_neg h]
    have hn : dictGet d k = none :=
      dictGet_eq_none_of_any_eq_false d k (Bool.eq_false_iff.mpr h)
    simp [dictGet_append, hn, dictGet_cons]

lemma dictGet_dictSet_ne (d : Params) (k v k' : String) (h : k' ≠ k) :
    dictGet (dictSet d k v) k' = dictGet d k' := by
  unfold dictSet
  by_cases hany : d.any (fun p => p.1 = k) = true
  · rw [if_pos hany]
    exact dictGet_map_set_ne d k v k' h
  · rw [if_neg hany]
    rw [dictGet_append]
    have h1 : dictGet [(k, v)] k' = none := by
      simp [dictGet_cons, Ne.symm h, dictGet_nil]
    rw [h1]
    cases dictGet d k' <;> rfl

/-- Unfolding of the reserved-key merge into four successive assignments. -/
lemma dictUpdate_reserved (d : Params) (offset limit : Nat) :
    dictUpdate d (reservedParams offset limit) =
      dictSet (dictSet (dictSet (dictSet d "offset" (toString offset))
        "limit" (toString limit)) "archived" "false") "sortBy[createdAt]" "desc" := by
  simp [dictUpdate, reservedParams, List.foldl]

/-! The `Result` pagination iterator (crud.py lines 71-122).  The mutable
object becomes explicit state passing on `ResultState`; its collaborator
`self._requests.list` becomes a `ListFn`, a function from the call's
offset, limit and the current query-params dict contents to either an
error or the triple (entities, total, contents of the caller's dict after
the call) — the last component models the in-place `|=` mutation of the
dict the `Result` stores by reference.  Each operation additionally
returns the number of underlying `list` calls it issued. -/

/-- Interface behavior of `CRUDClient.list` as `Result` consumes it. -/
abbrev ListFn (T : Type) := Nat → Nat → Params → Except PyError (List T × Nat × Params)

/-- State of a `Result` object (crud.py lines 74-86): the buffered deque,
the fixed page size, the cursor offset, the memoized total and the stored
query-params dict contents. -/
structure ResultState (T : Type) where
  data : List T
  limit : Nat
  offset : Nat
  total : Option Nat
  queryParams : Params
deriving DecidableEq

namespace Result

/-- `Result.__init__`: empty deque, caller-supplied offset and limit,
total `None`, the caller's query-params dict stored by reference. -/
def make {T : Type} (offset limit : Nat) (qp : Params) : ResultState T :=
  ⟨[], limit, offset, none, qp⟩

/-- `Result._fetch_next` (crud.py lines 106-118): one `list` call at the
current offset and limit; on success the offset advances by `limit`, the
entities are appended to the deque and the total is overwritten; if the
deque is still empty, `StopIteration` is raised (after those mutations).
An error from the `list` call propagates before any mutation. -/
def fetchNext {T : Type} (listFn : ListFn T) (s : ResultState T) :
    Except PyError Unit × ResultState T × Nat :=
  match listFn s.offset s.limit s.queryParams with
  | Except.error e => (Except.error e, s, 1)
  | Except.ok (entities, total, qp) =>
      let s' : ResultState T :=
        { s with offset := s.offset + s.limit, data := s.data ++ entities,
                 total := some total, queryParams := qp }
      if s'.data.isEmpty then (Except.error PyError.stopIteration, s', 1)
      else (Except.ok (), s', 1)

/-- `Result.__next__` (crud.py lines 91-94): pop the head of the deque,
fetching a page first when the deque is empty.  Errors from the fetch
(including its `StopIteration`) propagate. -/
def next {T : Type} (listFn : ListFn T) (s : ResultState T) :
    Except PyError T × ResultState T × Nat :=
  match s.data with
  | x :: rest => (Except.ok x, { s with data := rest }, 0)
  | [] =>
      match fetchNext listFn s with
      | (Except.error e, s', c) => (Except.error e, s', c)
      | (Except.ok _, s', c) =>
          match s'.data with
          | [] => (Except.error PyError.indexError, s', c)
          | x :: rest => (Except.ok x, { s' with data := rest }, c)

/-- `Result.__len__` (crud.py lines 96-104): when the total is not yet
memoized, one `list(0, 0, query_params)` call resolves and memoizes it;
otherwise the memoized value is returned with no call. -/
def length {T : Type} (listFn : ListFn T) (s : ResultState T) :
    Except PyError Nat × ResultState T × Nat :=
  match s.total with
  | some t => (Except.ok t, s, 0)
  | none =>
      match listFn 0 0 s.queryParams with
      | Except.error e => (Except.error e, s, 1)
      | Except.ok (_, total, qp) =>
          (Except.ok total, { s with total := some total, queryParams := qp }, 1)

/-- `Result.is_empty` (crud.py lines 120-122): literally
`self._total == 0`; in Python `None == 0` is `False`, so an unknown total
answers `false` and no fetch of any kind is issued. -/
def isEmpty {T : Type} (s : ResultState T) : Bool :=
  match s.total with
  | some t => t == 0
  | none => false

end Result

/-- The server collection model of the pagination claims: a `list` call at
`(offset, limit)` returns the window `entities[offset : offset + limit]`
of a fixed collection together with its total size. -/
def serverList {T : Type} (server : List T) (offset limit : Nat) : List T × Nat :=
  ((server.drop offset).take limit, server.length)

/-- `CRUDClient.list` against the fixed-collection server: always succeeds,
returns the window and total, and mutates the caller's (non-empty)
query-params dict in place with the reserved keys. -/
def serverListFn {T : Type} (server : List T) : ListFn T :=
  fun offset limit qp =>
    Except.ok ((serverList server offset limit).1, (serverList server offset limit).2,
      CRUDClient.callerParamsAfter qp offset limit)

/-- Outcome of repeatedly calling `Result.__next__`: the entities yielded
in order, the number of underlying `list` calls, whether iteration ended by
an exception (rather than by fuel exhaustion), and the final state. -/
structure RunOutcome (T : Type) where
  yields : List T
  calls : Nat
  stopped : Bool
  final : ResultState T
deriving DecidableEq

/-- Iterate `Result.__next__` up to `fuel` times, stopping at the first
exception (for the fixed-collection server the only exception is
`StopIteration`, Python's end-of-iteration signal). -/
def runIter {T : Type} (listFn : ListFn T) : Nat → ResultState T → RunOutcome T
  | 0, s => ⟨[], 0, false, s⟩
  | Nat.succ fuel, s =>
      match Result.next listFn s with
      | (Except.ok x, s', c) =>
          let r := runIter listFn fuel s'
          ⟨x :: r.yields, c + r.calls, r.stopped, r.final⟩
      | (Except.error _, s', c) => ⟨[], c, true, s'⟩

/-- Ceiling division on naturals: the number of non-empty pages of size
`l` needed to cover `n` entities. -/
def ceilDiv (n l : Nat) : Nat := (n + l - 1) / l

/-! Claim theorems. -/

/-- C2: `CRUDClient.get` on a transport whose response reports a
non-success status fails with the not-found-class error (modelled from the
spec: the concrete transport, not under `src/`, raises it) and does not
invoke the entity factory; on a success status the factory is invoked
exactly once, on the parsed body. -/
theorem C2_get_non_success_propagates {T : Type} (factory : Fields → T)
    (resp : GetResponse) (h : ¬ (200 ≤ resp.status ∧ resp.status < 300)) :
    CRUDClient.get factory resp = (Except.error PyError.notFoundError, 0) ∧
    (∀ r : GetResponse, 200 ≤ r.status → r.status < 300 →
      CRUDClient.get factory r = (Except.ok (factory r.body), 1)) := by
  constructor
  · simp [CRUDClient.get, transportGet, h]
  · intro r h1 h2
    simp [CRUDClient.get, transportGet, h1, h2]

/-- Witness for C2 at the spec's concrete example: a 404 response. -/
theorem C2_witness :
    CRUDClient.get (fun _ => (0 : Nat)) ⟨404, []⟩
      = (Except.error PyError.notFoundError, 0) :=
  (C2_get_non_success_propagates (fun _ => (0 : Nat)) ⟨404, []⟩ (by decide)).1

/-- C4 counterexample: on a server whose collection is empty (reported
total 0), a fresh `Result` — total not yet known — answers
`is_empty() = false`.  The code is `self._total == 0` with `_total` still
`None` (and `None == 0` is `False` in Python); no fetch is issued, as the
type of `Result.isEmpty` shows (it takes no list-call capability), so the
total is never resolved and the claimed `true` is not returned. -/
theorem C4_counterexample :
    Result.isEmpty (Result.make 0 1 [] : ResultState Nat) = false ∧
    (serverList ([] : List Nat) 0 0).2 = 0 := by
  constructor <;> rfl

/-- C4 amended: `Result.is_empty` returns true iff the memoized total is
known and equals zero; an unknown total answers false, and no fetch or
total resolution of any kind is performed (the operation is a pure read of
the `Result` state). -/
theorem C4_is_empty_iff_known_zero {T : Type} (s : ResultState T) :
    Result.isEmpty s = true ↔ s.total = some 0 := by
  cases h : s.total with
  | none => simp [Result.isEmpty, h]
  | some t => simp [Result.isEmpty, h]

/-- C5: in the outgoing request built by `CRUDClient.list`, the reserved
keys `offset`, `limit`, `archived` and `sortBy[createdAt]` carry the core's
injected values whatever the caller supplied for them, and every
non-reserved caller key keeps its caller-supplied value. -/
theorem C5_reserved_keys_win (qp : Params) (offset limit : Nat) :
    (dictGet (CRUDClient.outgoingParams (some qp) offset limit) "offset"
        = some (toString offset) ∧
     dictGet (CRUDClient.outgoingParams (some qp) offset limit) "limit"
        = some (toString limit) ∧
     dictGet (CRUDClient.outgoingParams (some qp) offset limit) "archived"
        = some "false" ∧
     dictGet (CRUDClient.outgoingParams (some qp) offset limit) "sortBy[createdAt]"
        = some "desc") ∧
    (∀ k, k ≠ "offset" → k ≠ "limit" → k ≠ "archived" → k ≠ "sortBy[createdAt]" →
      dictGet (CRUDClient.outgoingParams (some qp) offset limit) k = dictGet qp k) := by
  have hout : CRUDClient.outgoingParams (some qp) offset limit =
      dictSet (dictSet (dictSet (dictSet qp "offset" (toString offset))
        "limit" (toString limit)) "archived" "false") "sortBy[createdAt]" "desc" := by
    simp [CRUDClient.outgoingParams, dictUpdate_reserved]
  rw [hout]
  refine ⟨⟨?_, ?_, ?_, ?_⟩, ?_⟩
  · rw [dictGet_dictSet_ne _ _ _ _ (by decide), dictGet_dictSet_ne _ _ _ _ (by decide),
        dictGet_dictSet_ne _ _ _ _ (by decide), dictGet_dictSet_self]
  · rw [dictGet_dictSet_ne _ _ _ _ (by decide), dictGet_dictSet_ne _ _ _ _ (by decide),
        dictGet_dictSet_self]
  · rw [dictGet_dictSet_ne _ _ _ _ (by decide), dictGet_dictSet_self]
  · rw [dictGet_dictSet_self]
  · intro k h1 h2 h3 h4
    rw [dictGet_dictSet_ne _ _ _ _ h4, dictGet_dictSet_ne _ _ _ _ h3,
        dictGet_dictSet_ne _ _ _ _ h2, dictGet_dictSet_ne _ _ _ _ h1]

/-- Witness for C5: a caller-supplied `offset` is overridden, a
non-reserved key passes through. -/
theorem C5_witness :
    dictGet (CRUDClient.outgoingParams (some [("a", "1"), ("offset", "99")]) 2 3) "offset"
        = some "2" ∧
    dictGet (CRUDClient.outgoingParams (some [("a", "1"), ("offset", "99")]) 2 3) "a"
        = some "1" :=
  ⟨(C5_reserved_keys_win [("a", "1"), ("offset", "99")] 2 3).1.1,
   (C5_reserved_keys_win [("a", "1"), ("offset", "99")] 2 3).2 "a"
     (by decide) (by decide) (by decide) (by decide)⟩

/-- C6: from a state whose total is unknown, `len()` issues exactly one
underlying list call (the zero-limit fetch), memoizes and returns the
server-reported total; an immediately following `len()` issues no call and
returns the same value. -/
theorem C6_length_memoizes {T : Type} (server : List T) (s : ResultState T)
    (h : s.total = none) :
    (Result.length (serverListFn server) s).2.2 = 1 ∧
    (Result.length (serverListFn server)
        ((Result.length (serverListFn server) s).2.1)).2.2 = 0 ∧
    (Result.length (serverListFn server)
        ((Result.length (serverListFn server) s).2.1)).1
      = (Result.length (serverListFn server) s).1 ∧
    (Result.length (serverListFn server) s).1 = Except.ok server.length := by
  rcases s with ⟨d, lim, off, tot, q⟩
  simp only at h
  subst h
  simp [Result.length, serverListFn, serverList]

/-- Witness for C6 on a three-entity server. -/
theorem C6_witness :
    (Result.length (serverListFn [1, 2, 3]) (Result.make 0 2 [])).2.2 = 1 :=
  (C6_length_memoizes [1, 2, 3] (Result.make 0 2 []) rfl).1

/-- C7 counterexample: the claim says the size query writes only the
memoized total, but the underlying `CRUDClient.list` call mutates the
stored query-params dict in place with the reserved keys; after `len()` on
a `Result` holding the non-empty dict {"a": "b"}, that stored dict has
gained the `offset`, `limit`, `archived` and `sortBy[createdAt]` entries. -/
theorem C7_counterexample :
    (Result.length (serverListFn ([] : List Nat))
        (Result.make 0 1 [("a", "b")])).2.1.queryParams
      ≠ (Result.make 0 1 [("a", "b")] : ResultState Nat).queryParams := by
  decide

/-- C7 amended: the size query leaves the buffer, the cursor offset and the
limit exactly as they were and memoizes the returned total; but the
memoized total is not the only write — the stored query-params dict, when
non-empty, is additionally mutated in place by the underlying list call
(the reserved-key injection of C10). -/
theorem C7_size_query_preserves_cursor {T : Type} (server : List T) (s : ResultState T) :
    (Result.length (serverListFn server) s).2.1.offset = s.offset ∧
    (Result.length (serverListFn server) s).2.1.data = s.data ∧
    (Result.length (serverListFn server) s).2.1.limit = s.limit ∧
    ∃ t, (Result.length (serverListFn server) s).1 = Except.ok t ∧
      (Result.length (serverListFn server) s).2.1.total = some t := by
  rcases s with ⟨d, lim, off, tot, q⟩
  cases tot with
  | none => simp [Result.length, serverListFn, serverList]
  | some t => simp [Result.length]

/-- C9: `Result._fetch_next` is atomic on error: when the underlying list
call fails, the error propagates with the offset, the buffer, the memoized
total and the stored query params all exactly as before the call — the
mutations of crud.py lines 113-115 happen only after a successful call, so
the offset advances only once a page has been fetched and buffered. -/
theorem C9_fetch_atomic_on_error {T : Type} (listFn : ListFn T) (s : ResultState T)
    (e : PyError) (h : listFn s.offset s.limit s.queryParams = Except.error e) :
    Result.fetchNext listFn s = (Except.error e, s, 1) := by
  simp [Result.fetchNext, h]

/-- Witness for C9: a transport that always fails leaves a fresh `Result`
untouched. -/
theorem C9_witness :
    Result.fetchNext (fun _ _ _ => Except.error PyError.connectionError)
        (Result.make 0 1 [] : ResultState Nat)
      = (Except.error PyError.connectionError, Result.make 0 1 [], 1) :=
  C9_fetch_atomic_on_error _ _ PyError.connectionError rfl

/-- C10: `CRUDClient.list` mutates a non-empty caller-supplied query-params
dict in place: afterwards it holds the reserved entries with the injected
string values; consequently a `Result`'s stored dict (held by reference)
has accumulated them after its first size query (`len`, a `list(0, 0, qp)`
call) and after a page fetch (`__next__` on an empty buffer, a
`list(offset, limit, qp)` call). -/
theorem C10_list_mutates_caller_dict (qp : Params) (offset limit : Nat) (h : qp ≠ []) :
    (dictGet (CRUDClient.callerParamsAfter qp offset limit) "offset"
        = some (toString offset) ∧
     dictGet (CRUDClient.callerParamsAfter qp offset limit) "limit"
        = some (toString limit) ∧
     dictGet (CRUDClient.callerParamsAfter qp offset limit) "archived"
        = some "false" ∧
     dictGet (CRUDClient.callerParamsAfter qp offset limit) "sortBy[createdAt]"
        = some "desc") ∧
    (∀ (T : Type) (server : List T) (s : ResultState T),
      s.queryParams = qp → s.total = none →
      (Result.length (serverListFn server) s).2.1.queryParams
        = CRUDClient.callerParamsAfter qp 0 0) ∧
    (∀ (T : Type) (server : List T) (s : ResultState T),
      s.queryParams = qp → s.data = [] →
      (Result.next (serverListFn server) s).2.1.queryParams
        = CRUDClient.callerParamsAfter qp s.offset s.limit) := by
  have hca : CRUDClient.callerParamsAfter qp offset limit =
      dictSet (dictSet (dictSet (dictSet qp "offset" (toString offset))
        "limit" (toString limit)) "archived" "false") "sortBy[createdAt]" "desc" := by
    simp [CRUDClient.callerParamsAfter, h, dictUpdate_reserved]
  refine ⟨?_, ?_, ?_⟩
  · rw [hca]
    refine ⟨?_, ?_, ?_, ?_⟩
    · rw [dictGet_dictSet_ne _ _ _ _ (by decide), dictGet_dictSet_ne _ _ _ _ (by decide),
          dictGet_dictSet_ne _ _ _ _ (by decide), dictGet_dictSet_self]
    · rw [dictGet_dictSet_ne _ _ _ _ (by decide), dictGet_dictSet_ne _ _ _ _ (by decide),
          dictGet_dictSet_self]
    · rw [dictGet_dictSet_ne _ _ _ _ (by decide), dictGet_dictSet_self]
    · rw [dictGet_dictSet_self]
  · intro T server s hqp htot
    rcases s with ⟨d, lim, off, tot, q⟩
    simp only at hqp htot
    subst hqp; subst htot
    simp [Result.length, serverListFn, serverList]
  · intro T server s hqp hdata
    rcases s with ⟨d, lim, off, tot, q⟩
    simp only at hqp hdata
    subst hqp; subst hdata
    cases hp : (server.drop off).take lim with
    | nil => simp [Result.next, Result.fetchNext, serverListFn, serverList, hp]
    | cons a l => simp [Result.next, Result.fetchNext, serverListFn, serverList, hp]

/-- Witness for C10: the dict {"a": "b"} passed to a list call at offset 5,
limit 2 has gained the reserved keys. -/
theorem C10_witness :
    dictGet (CRUDClient.callerParamsAfter [("a", "b")] 5 2) "archived" = some "false" :=
  ((C10_list_mutates_caller_dict [("a", "b")] 5 2 (by decide)).1).2.2.1

/-- C3 counterexample: on an empty server with limit 1, the first
`__next__` signals end-of-sequence (`StopIteration` after one list call);
but a second `__next__` on the resulting exhausted state issues another
underlying list call (its call count is 1, not the claimed 0): the code
stores no terminal exhausted flag and re-fetches on every subsequent
`__next__`. -/
theorem C3_counterexample :
    Result.next (serverListFn ([] : List Nat)) (Result.make 0 1 [])
      = (Except.error PyError.stopIteration, ⟨[], 1, 1, some 0, []⟩, 1) ∧
    (Result.next (serverListFn ([] : List Nat)) ⟨[], 1, 1, some 0, []⟩).2.2 = 1 :=
  ⟨rfl, rfl⟩

/-- C3 amended: once a `__next__` has signaled end-of-sequence, every
further `__next__` on the resulting state signals end-of-sequence again
(the fixed collection has no entities at or beyond the advanced offset) —
but it does so by issuing one more underlying list call each time; the
exhausted condition is re-detected by re-fetching, never remembered. -/
theorem C3_next_after_exhaustion {T : Type} (server : List T) (s0 s : ResultState T)
    (c : Nat)
    (h : Result.next (serverListFn server) s0
           = (Except.error PyError.stopIteration, s, c)) :
    ∃ s', Result.next (serverListFn server) s
            = (Except.error PyError.stopIteration, s', 1) := by
  rcases s0 with ⟨d0, lim, off, tot, q⟩
  cases d0 with
  | cons x rest => simp [Result.next] at h
  | nil =>
      cases hp : (server.drop off).take lim with
      | cons a l =>
          simp [Result.next, Result.fetchNext, serverListFn, serverList, hp] at h
      | nil =>
          simp [Result.next, Result.fetchNext, serverListFn, serverList, hp] at h
          have hs : s = ⟨[], lim, off + lim, some server.length,
              CRUDClient.callerParamsAfter q off lim⟩ := h.1.symm
          subst hs
          have hp2 : (server.drop (off + lim)).take lim = [] := by
            rcases List.take_eq_nil_iff.mp hp with h0 | hnil
            · simp [h0]
            · have hle : server.length ≤ off := List.drop_eq_nil_iff.mp hnil
              have : server.drop (off + lim) = [] :=
                List.drop_eq_nil_of_le (by omega)
              simp [this]
          refine ⟨⟨[], lim, off + lim + lim, some server.length,
            CRUDClient.callerParamsAfter
              (CRUDClient.callerParamsAfter q off lim) (off + lim) lim⟩, ?_⟩
          simp [Result.next, Result.fetchNext, serverListFn, serverList, hp2]

/-- Witness for C3's amended theorem: the exhausted state reached on the
empty server stops again, with one more list call. -/
theorem C3_witness :
    ∃ s', Result.next (serverListFn ([] : List Nat)) ⟨[], 1, 1, some 0, []⟩
            = (Except.error PyError.stopIteration, s', 1) :=
  C3_next_after_exhaustion [] (Result.make 0 1 []) ⟨[], 1, 1, some 0, []⟩ 1 rfl

/-- C8: `CRUDClient.list` fails at the point of the call — never returning
a result — exactly when the `x-total-count` header is missing (Python's
`int(None)` raises `TypeError`) or its value is rejected by Python's
decimal-integer parse (`ValueError`); it raises before constructing any
entity, and on a parseable header it returns the constructed entities and
the parsed total. -/
theorem C8_total_header_parse {T : Type} (factory : Fields → T) (resp : ListResponse) :
    (headerGet resp.headers "x-total-count" = none →
      CRUDClient.list factory resp = Except.error PyError.typeError) ∧
    (∀ v, headerGet resp.headers "x-total-count" = some v →
      pyIntCore (pyStrip v.toList) = none →
      CRUDClient.list factory resp = Except.error PyError.valueError) ∧
    (∀ r, CRUDClient.list factory resp = Except.ok r →
      ∃ v n, headerGet resp.headers "x-total-count" = some v ∧
        pyIntCore (pyStrip v.toList) = some n ∧ r = (resp.body.map factory, n)) := by
  refine ⟨?_, ?_, ?_⟩
  · intro h
    simp [CRUDClient.list, pyIntOfOpt, h]
  · intro v hv hparse
    have h2 : pyIntOfString v = Except.error PyError.valueError := by
      unfold pyIntOfString
      rw [hparse]
    simp [CRUDClient.list, pyIntOfOpt, hv, h2]
  · intro r hr
    cases hh : headerGet resp.headers "x-total-count" with
    | none => simp [CRUDClient.list, pyIntOfOpt, hh] at hr
    | some v =>
        cases hp : pyIntCore (pyStrip v.toList) with
        | none =>
            have h2 : pyIntOfString v = Except.error PyError.valueError := by
              unfold pyIntOfString
              rw [hp]
            simp [CRUDClient.list, pyIntOfOpt, hh, h2] at hr
        | some n =>
            have h2 : pyIntOfString v = Except.ok n := by
              unfold pyIntOfString
              rw [hp]
            refine ⟨v, n, rfl, hp, ?_⟩
            simp [CRUDClient.list, pyIntOfOpt, hh, h2] at hr
            exact hr.symm

/-- Witness for C8: a non-numeric header value and a missing header both
make the list call fail. -/
theorem C8_witness :
    CRUDClient.list (fun _ => (0 : Nat)) ⟨[("x-total-count", "abc")], []⟩
      = Except.error PyError.valueError ∧
    CRUDClient.list (fun _ => (0 : Nat)) ⟨[], []⟩
      = Except.error PyError.typeError :=
  ⟨(C8_total_header_parse (fun _ => (0 : Nat)) ⟨[("x-total-count", "abc")], []⟩).2.1
      "abc" rfl rfl,
   (C8_total_header_parse (fun _ => (0 : Nat)) ⟨[], []⟩).1 rfl⟩

/-- Consuming one page of size `lim ≥ 1` from `n ≥ 1` remaining entities
takes one off the page count: `⌈n/lim⌉ = ⌈(n-lim)/lim⌉ + 1`. -/
lemma ceilDiv_chunk (n lim : Nat) (hl : 1 ≤ lim) (hn : 1 ≤ n) :
    ceilDiv n lim = ceilDiv (n - lim) lim + 1 := by
  unfold ceilDiv
  have h1 : n + lim - 1 = (n - 1) + lim := by omega
  rw [h1, Nat.add_div_right _ (by omega : 0 < lim)]
  have h2 : (n - 1) / lim = (n - lim + lim - 1) / lim := by
    by_cases h : lim ≤ n
    · have h3 : n - lim + lim - 1 = n - 1 := by omega
      rw [h3]
    · have h0 : n - lim = 0 := by omega
      rw [h0]
      rw [Nat.div_eq_of_lt (by omega), Nat.div_eq_of_lt (by omega)]
  omega

/-- Zero remaining entities need zero non-empty pages. -/
lemma ceilDiv_zero_entities (lim : Nat) (hl : 1 ≤ lim) : ceilDiv 0 lim = 0 := by
  unfold ceilDiv
  exact Nat.div_eq_of_lt (by omega)

/-- Draining the buffer: while the deque is non-empty each `__next__` pops
the head with no list call, so the run over `buf.length + m` fuel first
yields all of `buf` and then continues exactly as the run with `m` fuel
from the corresponding empty-buffer state. -/
lemma runIter_buffer {T : Type} (listFn : ListFn T) (buf : List T) (lim off : Nat)
    (tot : Option Nat) (qp : Params) (m : Nat) :
    runIter listFn (buf.length + m) ⟨buf, lim, off, tot, qp⟩ =
      ⟨buf ++ (runIter listFn m ⟨[], lim, off, tot, qp⟩).yields,
       (runIter listFn m ⟨[], lim, off, tot, qp⟩).calls,
       (runIter listFn m ⟨[], lim, off, tot, qp⟩).stopped,
       (runIter listFn m ⟨[], lim, off, tot, qp⟩).final⟩ := by
  induction buf with
  | nil => simp
  | cons x rest ih =>
      have hfuel : (x :: rest).length + m = Nat.succ (rest.length + m) := by
        simp [List.length_cons, Nat.succ_add]
      rw [hfuel]
      simp [runIter, Result.next, ih]

/-- One unfolding step of `runIter` when `__next__` yields an entity. -/
lemma runIter_yield_step {T : Type} (listFn : ListFn T) (fuel : Nat)
    (s s' : ResultState T) (x : T) (c : Nat)
    (h : Result.next listFn s = (Except.ok x, s', c)) :
    runIter listFn (fuel + 1) s =
      ⟨x :: (runIter listFn fuel s').yields, c + (runIter listFn fuel s').calls,
       (runIter listFn fuel s').stopped, (runIter listFn fuel s').final⟩ := by
  simp [runIter, h]

/-- Main drain lemma for C1: from an empty buffer at offset `off` over a
fixed collection, with page size `lim ≥ 1` and fuel one more than the
`n` remaining entities, iteration yields exactly the remaining suffix in
order, issues `⌈n/lim⌉ + 1` list calls and terminates with the
`StopIteration` of the final, empty page fetch. -/
lemma runIter_from_empty {T : Type} (server : List T) (lim : Nat) (hl : 1 ≤ lim) :
    ∀ n off tot qp, (server.drop off).length = n →
      (runIter (serverListFn server) (n + 1) ⟨[], lim, off, tot, qp⟩).yields
          = server.drop off ∧
      (runIter (serverListFn server) (n + 1) ⟨[], lim, off, tot, qp⟩).calls
          = ceilDiv n lim + 1 ∧
      (runIter (serverListFn server) (n + 1) ⟨[], lim, off, tot, qp⟩).stopped
          = true := by
  intro n
  induction n using Nat.strong_induction_on with
  | _ n ih =>
    intro off tot qp hrest
    cases hsd : server.drop off with
    | nil =>
        have hn : n = 0 := by
          rw [hsd] at hrest
          simpa using hrest.symm
        subst hn
        have hstep : Result.next (serverListFn server) ⟨[], lim, off, tot, qp⟩
            = (Except.error PyError.stopIteration,
               ⟨[], lim, off + lim, some server.length,
                 CRUDClient.callerParamsAfter qp off lim⟩, 1) := by
          simp [Result.next, Result.fetchNext, serverListFn, serverList, hsd]
        rw [show (0 + 1 : Nat) = Nat.succ 0 from rfl]
        simp [runIter, hstep, hsd, ceilDiv_zero_entities lim hl]
    | cons y ys =>
        have hn : n = ys.length + 1 := by
          rw [hsd] at hrest
          simpa using hrest.symm
        obtain ⟨l', rfl⟩ : ∃ l', lim = l' + 1 := ⟨lim - 1, by omega⟩
        have hstep : Result.next (serverListFn server) ⟨[], l' + 1, off, tot, qp⟩
            = (Except.ok y,
               ⟨ys.take l', l' + 1, off + (l' + 1), some server.length,
                 CRUDClient.callerParamsAfter qp off (l' + 1)⟩, 1) := by
          simp [Result.next, Result.fetchNext, serverListFn, serverList, hsd,
            List.take_succ_cons]
        have hdrop2 : server.drop (off + (l' + 1)) = ys.drop l' := by
          rw [← List.drop_drop, hsd, List.drop_succ_cons]
        have hbuf := runIter_buffer (serverListFn server) (ys.take l') (l' + 1)
          (off + (l' + 1)) (some server.length)
          (CRUDClient.callerParamsAfter qp off (l' + 1)) (ys.length - l' + 1)
        have hm : (ys.take l').length + (ys.length - l' + 1) = n := by
          simp [List.length_take]
          omega
        rw [hm] at hbuf
        have hih := ih (ys.length - l') (by omega) (off + (l' + 1))
          (some server.length) (CRUDClient.callerParamsAfter qp off (l' + 1))
          (by rw [hdrop2]; simp [List.length_drop])
        rw [runIter_yield_step (serverListFn server) n _ _ _ _ hstep, hbuf]
        dsimp only
        rw [hdrop2] at hih
        refine ⟨?_, ?_, ?_⟩
        · rw [hih.1]
          simp [List.take_append_drop]
        · rw [hih.2.1]
          have hc := ceilDiv_chunk n (l' + 1) hl (by omega)
          have hsub : n - (l' + 1) = ys.length - l' := by omega
          rw [hsub] at hc
          omega
        · exact hih.2.2

/-- C1: iterating a fresh `Result` (offset 0, page size `limit ≥ 1`) over a
server collection of `N` entities — each `list(offset, limit)` call
returning the window `entities[offset : offset+limit]` and total `N` —
yields exactly the `N` entities in server order and issues
`⌈N/limit⌉ + 1` underlying list calls; the run ends in the
`StopIteration` raised by the final fetch, whose page is empty
(`stopped = true`, so iteration ended by the terminal empty page and not by
running out of fuel). -/
theorem C1_pagination_complete {T : Type} (server : List T) (limit : Nat)
    (hl : 1 ≤ limit) (qp : Params) :
    (runIter (serverListFn server) (server.length + 1)
        (Result.make 0 limit qp)).yields = server ∧
    (runIter (serverListFn server) (server.length + 1)
        (Result.make 0 limit qp)).calls = ceilDiv server.length limit + 1 ∧
    (runIter (serverListFn server) (server.length + 1)
        (Result.make 0 limit qp)).stopped = true := by
  have h := runIter_from_empty server limit hl server.length 0 none qp (by simp)
  simpa [Result.make] using h

/-- Witness for C1 at the spec's scenario: five entities, page size 2 —
all five are yielded in order with `⌈5/2⌉ + 1 = 4` list calls. -/
theorem C1_witness :
    (runIter (serverListFn [1, 2, 3, 4, 5]) 6 (Result.make 0 2 [])).yields
        = [1, 2, 3, 4, 5] ∧
    (runIter (serverListFn [1, 2, 3, 4, 5]) 6 (Result.make 0 2 [])).calls = 4 ∧
    (runIter (serverListFn [1, 2, 3, 4, 5]) 6 (Result.make 0 2 [])).stopped = true := by
  have h := C1_pagination_complete [1, 2, 3, 4, 5] 2 (by omega) []
  simpa [ceilDiv] using h
